import Mathlib

/-!
Verification of the versioned pipeline / artifact-lineage layer of the
churn-prediction repository (src/ingest.py, src/local_storage.py,
src/validate.py, src/prepare.py, src/transform.py, src/feature_store.py,
src/train.py, flows/churn_prefect_flow.py).

The Python code is shallowly embedded: pandas data frames become lists of
named columns of cells, the filesystem artifact store becomes explicit
association lists threaded through the stage functions, and Python string
comparison becomes a lexicographic order on lists of characters compared by
code point.  External library calls that the code treats as opaque
(sklearn's StandardScaler and the fixed-seed shuffle of train_test_split)
are abstracted as explicit function parameters, following the repository's
own treatment of them as black-box collaborators.
-/

namespace Churn


/-! ## Lexicographic order on strings (Python `<` on `str`)

Python compares strings by code point, left to right, shorter prefix first.
`lexLt` mirrors that on the underlying character lists. -/

def lexLt : List Char → List Char → Bool
  | _, [] => false
  | [], _ :: _ => true
  | a :: as, b :: bs =>
      if a.toNat < b.toNat then true
      else if b.toNat < a.toNat then false
      else lexLt as bs

/-- Python string comparison `a < b` on whole strings. -/
def strLt (a b : String) : Bool := lexLt a.data b.data

/-! ## Version identifiers: `datetime.now().strftime("%Y%m%d_%H%M%S")`

Every stage stamps its outputs with the current wall-clock time rendered as
`YYYYMMDD_HHMMSS` (local_storage.store_file, validate.validate_file,
prepare.prepare_dataset, FeatureStore.__init__, train).  `padDigits w n`
renders `n` as exactly `w` decimal digits, most significant first, with
leading zeros, exactly as the zero-padded strftime fields do. -/

def digitChar (d : Nat) : Char :=
  match d with
  | 0 => '0' | 1 => '1' | 2 => '2' | 3 => '3' | 4 => '4'
  | 5 => '5' | 6 => '6' | 7 => '7' | 8 => '8' | _ => '9'

def padDigits : Nat → Nat → List Char
  | 0, _ => []
  | w + 1, n => padDigits w (n / 10) ++ [digitChar (n % 10)]

/-- A wall-clock time at second granularity, the data `strftime` renders. -/
structure Timestamp where
  year : Nat
  month : Nat
  day : Nat
  hour : Nat
  minute : Nat
  second : Nat
deriving DecidableEq, Repr

/-- Field bounds under which each strftime field fits its fixed width. -/
def Timestamp.valid (t : Timestamp) : Prop :=
  t.year < 10000 ∧ t.month < 100 ∧ t.day < 100 ∧
    t.hour < 100 ∧ t.minute < 100 ∧ t.second < 100

instance (t : Timestamp) : Decidable t.valid := by
  unfold Timestamp.valid; infer_instance

/-- Creation-time order at second granularity: lexicographic on the fields,
most significant first. -/
def Timestamp.ltb (a b : Timestamp) : Bool :=
  decide (a.year < b.year) || (decide (a.year = b.year) &&
    (decide (a.month < b.month) || (decide (a.month = b.month) &&
      (decide (a.day < b.day) || (decide (a.day = b.day) &&
        (decide (a.hour < b.hour) || (decide (a.hour = b.hour) &&
          (decide (a.minute < b.minute) || (decide (a.minute = b.minute) &&
            decide (a.second < b.second))))))))))

/-- The version identifier `t.strftime("%Y%m%d_%H%M%S")`, as characters. -/
def fmtTimestamp (t : Timestamp) : List Char :=
  padDigits 4 t.year ++ (padDigits 2 t.month ++ (padDigits 2 t.day ++
    ('_' :: (padDigits 2 t.hour ++ (padDigits 2 t.minute ++ padDigits 2 t.second)))))

/-- The same version identifier as a `String`. -/
def fmtStr (t : Timestamp) : String := ⟨fmtTimestamp t⟩

/-! ## Version Resolver

`sorted(xs)` / `sorted(xs, reverse=True)` over Python strings, embedded as
insertion sorts under `strLt`. -/

def insertDesc (s : String) : List String → List String
  | [] => [s]
  | t :: ts => if strLt t s then s :: t :: ts else t :: insertDesc s ts

/-- `sorted(l, reverse=True)` (validate.py / prepare.py `get_latest_file`). -/
def sortDesc (l : List String) : List String := l.foldr insertDesc []

def insertAsc (s : String) : List String → List String
  | [] => [s]
  | t :: ts => if strLt s t then s :: t :: ts else t :: insertAsc s ts

/-- `l.sort()` ascending (train.py `get_latest_timestamp`). -/
def sortAsc (l : List String) : List String := l.foldr insertAsc []

/-- `sorted(versions, reverse=True)[0]` — the version the resolvers pick. -/
def latestVersion (versions : List String) : Option String :=
  (sortDesc versions).head?

/-! ## The lake layout and the per-stage resolvers

`data/lake/{source_type}/{timestamp}/{filename}`: a source directory maps
version-folder names to the files inside (in `os.listdir` order); the lake
maps source names to source directories. -/

def lookupA {α : Type} (k : String) : List (String × α) → Option α
  | [] => none
  | p :: ps => if p.1 == k then some p.2 else lookupA k ps

abbrev VersionDir := List (String × List String)

abbrev Lake := List (String × VersionDir)

/-- `validate.get_latest_file` / `prepare.get_latest_file`:
`all_dates = sorted(os.listdir(folder), reverse=True)`, raise if empty,
else descend into `all_dates[0]`, raise if it holds no files, else return
the path of its first file. -/
def getLatestFile (folder : VersionDir) : Except String String :=
  match latestVersion (folder.map (·.1)) with
  | none => .error "No folders found"
  | some v =>
    match (lookupA v folder).getD [] with
    | [] => .error "No files found"
    | f :: _ => .ok (v ++ "/" ++ f)

/-- Resolving one source under the lake root; `os.listdir` on a missing
source directory raises `FileNotFoundError` just like an empty one leads to
a raise inside `get_latest_file`. -/
def resolveSource (lake : Lake) (src : String) : Except String String :=
  match lookupA src lake with
  | none => .error ("No folders found in " ++ src)
  | some folder => getLatestFile folder

/-- Outcome of one stage run of the pipeline. -/
inductive StageOutcome where
  | success (warnings : List String)
  | failure (msg : String)
deriving DecidableEq, Repr

def StageOutcome.isSuccess : StageOutcome → Bool
  | .success _ => true
  | .failure _ => false

/-- `validate.run_validation`: for each of the two sources, resolve the
latest file and validate it; a `FileNotFoundError` is caught, printed and
logged as a warning, and the loop continues.  The function has no failing
path: an absent upstream version degrades to a warning.
(`prepare.run_preparation` has the identical try/except structure.) -/
def runValidation (lake : Lake) : StageOutcome :=
  .success (["csv_source", "api_source"].filterMap (fun src =>
    match resolveSource lake src with
    | .error e => some e
    | .ok _ => none))

/-! ### train.py's resolver over the warehouse -/

def isDigitChar (c : Char) : Bool :=
  decide (48 ≤ c.toNat) && decide (c.toNat ≤ 57)

def stripPref : List Char → List Char → Option (List Char)
  | [], rest => some rest
  | _ :: _, [] => none
  | p :: ps, c :: cs => if p = c then stripPref ps cs else none

def takeDigitsN : Nat → List Char → Option (List Char)
  | 0, rest => some rest
  | _ + 1, [] => none
  | n + 1, c :: cs => if isDigitChar c then takeDigitsN n cs else none

/-- `re.match(r"X_train_\d\x7b8\x7d_\d\x7b6\x7d\.csv", f)`: anchored at the
start of the filename (Python `re.match` does not anchor the end). -/
def matchesXtrain (f : String) : Bool :=
  match stripPref "X_train_".data f.data with
  | none => false
  | some r1 =>
    match takeDigitsN 8 r1 with
    | none => false
    | some r2 =>
      match r2 with
      | '_' :: r3 =>
        match takeDigitsN 6 r3 with
        | none => false
        | some r4 => (stripPref ".csv".data r4).isSome
      | _ => false

/-- `re.search(...).group(1)` on a name of the form
`X_train_YYYYMMDD_HHMMSS.csv`: characters 8 through 22. -/
def extractTs (f : String) : String := ⟨(f.data.drop 8).take 15⟩

/-- `train.get_latest_timestamp`: filter the warehouse listing by the
version pattern, raise if nothing matches, else sort ascending, take the
last filename and extract its timestamp.  The raise is NOT caught anywhere
in train.py: it aborts the stage. -/
def getLatestTimestamp (files : List String) : Except String String :=
  match (sortAsc (files.filter matchesXtrain)).getLast? with
  | none => .error "No versioned X_train file found. Run feature store first."
  | some f => .ok (extractTs f)

/-! ## Tabular data

A pandas frame is a list of named columns; each column is a list of cells.
A cell is a number (`int64`/`float64` values as rationals), a string
(`object` dtype), an indicator produced by `get_dummies`, or a missing
value (`NaN`). -/

inductive Cell where
  | num (q : Rat)
  | str (s : String)
  | ind (b : Bool)
  | null
deriving DecidableEq, Repr

abbrev Col := List Cell

abbrev DataFrame := List (String × Col)

def Cell.isNull : Cell → Bool
  | .null => true
  | _ => false

def Cell.isStr : Cell → Bool
  | .str _ => true
  | _ => false

def Cell.isNum : Cell → Bool
  | .num _ => true
  | _ => false

/-- Column dtype as pandas infers it: any string makes the column `object`,
indicator columns are `bool`-typed (what `get_dummies` emits and what
`select_dtypes(['int64','float64'])` never picks up), a missing value in a
numeric column forces `float64`, otherwise integral values are `int64`. -/
def dtypeOf (c : Col) : String :=
  if c.any Cell.isStr then "object"
  else if c.any (fun x => match x with | .ind _ => true | _ => false) then "bool"
  else if c.any Cell.isNull then "float64"
  else if c.all (fun x => match x with | .num q => q.den == 1 | _ => true) then "int64"
  else "float64"

/-- `df.select_dtypes(include=['int64','float64'])` membership: every cell
is a number or missing. -/
def isNumericCol (c : Col) : Bool := c.all (fun x => x.isNum || x.isNull)

/-- `df[col].isnull().sum()`. -/
def missingCount (c : Col) : Nat := (c.filter Cell.isNull).length

/-- `df[col].nunique()`: distinct non-null values. -/
def nuniqueCount (c : Col) : Nat :=
  (c.filter (fun x => !x.isNull)).foldl
    (fun acc x => if x ∈ acc then acc else x :: acc) [] |>.length

def rowAt (df : DataFrame) (i : Nat) : List Cell :=
  df.map (fun c => c.2.getD i Cell.null)

def rowsOf (df : DataFrame) : List (List Cell) :=
  (List.range (match df with | [] => 0 | c :: _ => c.2.length)).map (rowAt df)

/-- `df.duplicated().sum()`: rows equal to some earlier row. -/
def dupAux : List (List Cell) → List (List Cell) → Nat
  | _, [] => 0
  | seen, r :: rs => (if r ∈ seen then 1 else 0) + dupAux (r :: seen) rs

def dupCount (df : DataFrame) : Nat := dupAux [] (rowsOf df)

/-! ### Numeric parsing and column statistics -/

def digitVal (c : Char) : Nat := c.toNat - 48

def parseDigits (cs : List Char) : Option Nat :=
  if cs = [] then none
  else if cs.all isDigitChar then
    some (cs.foldl (fun acc c => 10 * acc + digitVal c) 0)
  else none

/-- A fragment of Python float parsing sufficient for CSV numerals:
optional sign, integer part, optional fractional part
(`pd.to_numeric(x, errors='coerce')` yields NaN on anything else,
in particular on the blank `TotalCharges` entries). -/
def parseRat (s : String) : Option Rat :=
  let core : List Char → Option Rat := fun cs =>
    match cs.splitOn '.' with
    | [intPart] => (parseDigits intPart).map (fun n => (n : Rat))
    | [intPart, fracPart] =>
      match parseDigits fracPart with
      | none => none
      | some f =>
        let fv : Rat := (f : Rat) / ((10 : Rat) ^ fracPart.length)
        if intPart = [] then some fv
        else (parseDigits intPart).map (fun n => (n : Rat) + fv)
    | _ => none
  match s.data with
  | '-' :: rest => (core rest).map (fun q => -q)
  | cs => core cs

/-- One cell under `pd.to_numeric(col, errors='coerce')`. -/
def toNumericCell : Cell → Cell
  | .num q => .num q
  | .ind b => .num (if b then 1 else 0)
  | .null => .null
  | .str s =>
    match parseRat s with
    | some q => .num q
    | none => .null

def insertRat (q : Rat) : List Rat → List Rat
  | [] => [q]
  | r :: rs => if q ≤ r then q :: r :: rs else r :: insertRat q rs

def sortRat (l : List Rat) : List Rat := l.foldr insertRat []

def colNums (c : Col) : List Rat :=
  c.filterMap (fun x => match x with | .num q => some q | _ => none)

/-- `df[col].median()`: NaN-skipping median, mean of the two central values
for an even count; `none` when the column has no numeric values (in which
case `fillna(median)` leaves the column unchanged). -/
def medianCol (c : Col) : Option Rat :=
  let s := sortRat (colNums c)
  match s with
  | [] => none
  | _ =>
    let n := s.length
    if n % 2 = 1 then s.get? (n / 2)
    else match s.get? (n / 2 - 1), s.get? (n / 2) with
      | some a, some b => some ((a + b) / 2)
      | _, _ => none

/-- `col.fillna(col.median())`. -/
def fillnaMedian (c : Col) : Col :=
  match medianCol c with
  | none => c
  | some m => c.map (fun x => if x.isNull then .num m else x)

/-! ## validate.validate_file

The function prints and logs missing-value, dtype and duplicate statistics,
coerces `TotalCharges` to numeric when that column exists, and then writes
the data-quality report artifact, a frame with one row per column holding
Column / DataType / MissingValues / UniqueValues.  It has no raising path of
its own: bad data only produces warnings in the log. -/

def coerceTotalCharges (df : DataFrame) : DataFrame :=
  if df.any (fun c => c.1 == "TotalCharges") then
    df.map (fun c =>
      if c.1 == "TotalCharges" then (c.1, c.2.map toNumericCell) else c)
  else df

/-- The data-quality report frame written by `validate_file` (after the
in-place `TotalCharges` coercion). -/
def validateReport (df : DataFrame) : DataFrame :=
  let d := coerceTotalCharges df
  [ ("Column", d.map (fun c => Cell.str c.1)),
    ("DataType", d.map (fun c => Cell.str (dtypeOf c.2))),
    ("MissingValues", d.map (fun c => Cell.num (missingCount c.2))),
    ("UniqueValues", d.map (fun c => Cell.num (nuniqueCount c.2))) ]

/-! ## prepare.prepare_dataset

Dataflow of the stage body, in source order: fill numeric columns with
their own medians, coerce-and-fill `TotalCharges`, map the `Churn` target
through the fixed dict, drop `customerID`, one-hot the remaining object
columns with `drop_first=True`, and standardize the numeric columns.
`StandardScaler.fit_transform` is an opaque external transform (spec §1);
it is passed in as the column-wise function `scale`. -/

/-- `df["Churn"].map({"Yes": 1, "No": 0})`: `pandas.Series.map` with a dict
maps any value absent from the dict — including NaN — to NaN. -/
def churnMap : Cell → Cell
  | .str s => if s = "Yes" then .num 1 else if s = "No" then .num 0 else .null
  | _ => .null

def insertStr (s : String) : List String → List String
  | [] => [s]
  | t :: ts => if strLt s t then s :: t :: ts else t :: insertStr s ts

def sortStr (l : List String) : List String := l.foldr insertStr []

def distinctStrs (c : Col) : List String :=
  (c.filterMap (fun x => match x with | .str s => some s | _ => none)).foldl
    (fun acc s => if s ∈ acc then acc else acc ++ [s]) []

/-- `pd.get_dummies(df, columns=cats, drop_first=True)` for one categorical
column: its sorted categories minus the first each become an indicator
column named `col_value`; a NaN row gets 0 in every indicator. -/
def dummyCols (name : String) (c : Col) : List (String × Col) :=
  (sortStr (distinctStrs c)).drop 1 |>.map (fun v =>
    (name ++ "_" ++ v, c.map (fun x => Cell.ind (x = .str v))))

def getDummies (cats : List String) (df : DataFrame) : DataFrame :=
  (df.filter (fun c => !cats.contains c.1)) ++
    ((df.filter (fun c => cats.contains c.1)).flatMap (fun c => dummyCols c.1 c.2))

/-- `df[numeric_cols] = df[numeric_cols].fillna(df[numeric_cols].median())`. -/
def prepStep1 (df : DataFrame) : DataFrame :=
  df.map (fun c => if isNumericCol c.2 then (c.1, fillnaMedian c.2) else c)

/-- `if 'TotalCharges' in df.columns:` coerce to numeric, fill with the
column median. -/
def prepStep2 (df : DataFrame) : DataFrame :=
  if df.any (fun c => c.1 == "TotalCharges") then
    df.map (fun c =>
      if c.1 == "TotalCharges" then (c.1, fillnaMedian (c.2.map toNumericCell)) else c)
  else df

/-- `if 'Churn' in df.columns: df["Churn"] = df["Churn"].map(...)`. -/
def prepStep3 (df : DataFrame) : DataFrame :=
  if df.any (fun c => c.1 == "Churn") then
    df.map (fun c => if c.1 == "Churn" then (c.1, c.2.map churnMap) else c)
  else df

/-- `if 'customerID' in df.columns: df = df.drop('customerID', axis=1)`. -/
def prepStep4 (df : DataFrame) : DataFrame :=
  df.filter (fun c => c.1 ≠ "customerID")

/-- `categorical_cols = df.select_dtypes(include=['object']).columns`. -/
def prepCats (df : DataFrame) : List String :=
  (df.filter (fun c => dtypeOf c.2 == "object")).map (·.1)

/-- `df = pd.get_dummies(df, columns=categorical_cols, drop_first=True)`. -/
def prepStep5 (df : DataFrame) : DataFrame := getDummies (prepCats df) df

/-- `df[numeric_cols] = scaler.fit_transform(df[numeric_cols])` with the
scaler abstracted as `scale`. -/
def prepStep6 (scale : Col → Col) (df : DataFrame) : DataFrame :=
  df.map (fun c => if isNumericCol c.2 then (c.1, scale c.2) else c)

/-- The full data transformation of `prepare_dataset` (the artifact content;
the write goes to the fixed path `data/processed/{name}_prepared.csv`). -/
def prepareDataset (scale : Col → Col) (df : DataFrame) : DataFrame :=
  prepStep6 scale (prepStep5 (prepStep4 (prepStep3 (prepStep2 (prepStep1 df)))))

/-- `data/processed/{dataset_name}_prepared.csv` — prepare's output path
contains no version identifier at all. -/
def preparedPath (datasetName : String) : String :=
  "data/processed/" ++ datasetName ++ "_prepared.csv"

/-- transform.py's output path `data/processed/{name}_transformed.csv`,
with the double-suffix guard; equally version-free. -/
def transformedPath (datasetName : String) : String :=
  let transformedName :=
    if datasetName.endsWith "_transformed" then datasetName
    else datasetName ++ "_transformed"
  "data/processed/" ++ transformedName ++ ".csv"

/-! ## local_storage.store_file, as an observable sequence of filesystem
states

The body runs `dest_dir.mkdir(parents=True, exist_ok=True)` first, then
checks that the source file exists (raising `FileNotFoundError` if not),
then `shutil.copy`.  Each list element is the on-disk state after one of
those steps; any reader (`get_latest_file`, `os.listdir`) can run against
any of them. -/

def updateA {α : Type} (k : String) (dflt : α) (f : α → α)
    (l : List (String × α)) : List (String × α) :=
  if l.any (fun p => p.1 == k) then
    l.map (fun p => if p.1 == k then (p.1, f p.2) else p)
  else l ++ [(k, f dflt)]

def mkdirVersion (lake : Lake) (srcType ts : String) : Lake :=
  updateA srcType [] (fun vd =>
    if vd.any (fun p => p.1 == ts) then vd else vd ++ [(ts, [])]) lake

def addFileToVersion (lake : Lake) (srcType ts fname : String) : Lake :=
  updateA srcType []
    (updateA ts [] (fun fs => if fname ∈ fs then fs else fs ++ [fname])) lake

def listVersions (lake : Lake) (srcType : String) : List String :=
  ((lookupA srcType lake).getD []).map (·.1)

def filesOfVersion (lake : Lake) (srcType ts : String) : Option (List String) :=
  lookupA ts ((lookupA srcType lake).getD [])

/-- The successive on-disk states during `store_file(filename, source_type)`
run at wall-clock time stamped `ts`, with `rawFiles` the current contents of
`data/raw`.  When the source file is missing the copy never happens but the
version directory created by the preceding `mkdir` remains. -/
def storeFileTrace (lake : Lake) (rawFiles : List String)
    (filename srcType ts : String) : List Lake :=
  let afterMkdir := mkdirVersion lake srcType ts
  if filename ∈ rawFiles then
    [lake, afterMkdir, addFileToVersion afterMkdir srcType ts filename]
  else
    [lake, afterMkdir]

/-! ## A flat file store (`data/processed`, `warehouse`) -/

abbrev FileStore := List (String × DataFrame)

/-- Writing `path` truncates and replaces any existing file there
(`df.to_csv(path)` semantics). -/
def putFile (store : FileStore) (path : String) (content : DataFrame) : FileStore :=
  updateA path [] (fun _ => content) store

def lookupFile (store : FileStore) (path : String) : Option DataFrame :=
  lookupA path store

/-- One run of the prepare stage against the processed directory: compute
the prepared frame and write it to the fixed path. -/
def writePrepared (scale : Col → Col) (store : FileStore)
    (datasetName : String) (df : DataFrame) : FileStore :=
  putFile store (preparedPath datasetName) (prepareDataset scale df)

/-! ## feature_store.FeatureStore -/

structure FeatureStore where
  df : DataFrame
  timestamp : String
deriving DecidableEq, Repr

/-- `FeatureStore.__init__` stamps the instance once with
`datetime.now().strftime("%Y%m%d_%H%M%S")`. -/
def mkFeatureStore (df : DataFrame) (t : Timestamp) : FeatureStore :=
  { df := df, timestamp := fmtStr t }

/-- `FeatureStore.get_feature`: the column when the name is among the
frame's columns, `ValueError` otherwise; the stored frame is returned
untouched (explicit state passing for the read-only method). -/
def FeatureStore.get_feature (fs : FeatureStore) (featureName : String) :
    Except String Col × FeatureStore :=
  if fs.df.any (fun c => c.1 == featureName) then
    (.ok ((lookupA featureName fs.df).getD []), fs)
  else
    (.error ("Feature '" ++ featureName ++ "' not found in feature store."), fs)

def dropCol (df : DataFrame) (name : String) : DataFrame :=
  df.filter (fun c => c.1 ≠ name)

def selectRows (df : DataFrame) (idxs : List Nat) : DataFrame :=
  df.map (fun c => (c.1, idxs.map (fun i => c.2.getD i Cell.null)))

def nRows (df : DataFrame) : Nat :=
  match df with
  | [] => 0
  | c :: _ => c.2.length

/-- `FeatureStore.split_and_store(target_col, test_size=0.2,
random_state=42)`, as the list of the four writes it performs in source
order.  With the fixed seed, sklearn's shuffle is an opaque deterministic
function of the row count, passed in as `perm`; the test partition is the
first `ceil(0.2*n)` shuffled rows and the train partition the rest. -/
def splitWrites (perm : Nat → List Nat) (fs : FeatureStore)
    (targetCol : String) : List (String × DataFrame) :=
  let x := dropCol fs.df targetCol
  let y : DataFrame := [(targetCol, (lookupA targetCol fs.df).getD [])]
  let n := nRows fs.df
  let order := perm n
  let nTest := (n + 4) / 5
  let testIdx := order.take nTest
  let trainIdx := order.drop nTest
  [ ("X_train_" ++ fs.timestamp ++ ".csv", selectRows x trainIdx),
    ("X_test_" ++ fs.timestamp ++ ".csv", selectRows x testIdx),
    ("y_train_" ++ fs.timestamp ++ ".csv", selectRows y trainIdx),
    ("y_test_" ++ fs.timestamp ++ ".csv", selectRows y testIdx) ]

/-- The warehouse states before, between and after the four sequential
`to_csv` calls of `split_and_store`: the state after each prefix of the
writes.  Execution interrupted after any write leaves the corresponding
intermediate state on disk. -/
def splitStates (perm : Nat → List Nat) (fs : FeatureStore)
    (targetCol : String) (wh : FileStore) : List FileStore :=
  (splitWrites perm fs targetCol).scanl (fun s p => putFile s p.1 p.2) wh

/-- The warehouse after an uninterrupted `split_and_store` run: all four
writes applied in order. -/
def runSplitStore (perm : Nat → List Nat) (fs : FeatureStore)
    (targetCol : String) (wh : FileStore) : FileStore :=
  (splitWrites perm fs targetCol).foldl (fun s p => putFile s p.1 p.2) wh

/-- The four artifact names of one split version. -/
def splitSetNames (ts : String) : List String :=
  ["X_train_" ++ ts ++ ".csv", "X_test_" ++ ts ++ ".csv",
    "y_train_" ++ ts ++ ".csv", "y_test_" ++ ts ++ ".csv"]

def hasFile (store : FileStore) (path : String) : Bool :=
  store.any (fun p => p.1 == path)

/-- All four co-versioned split artifacts present. -/
def splitSetComplete (store : FileStore) (ts : String) : Bool :=
  (splitSetNames ts).all (hasFile store)

/-- At least one of the four present. -/
def splitSetStarted (store : FileStore) (ts : String) : Bool :=
  (splitSetNames ts).any (hasFile store)

/-! ## Stage-run records (for the two-run determinism property) -/

structure StageRun where
  versionId : String
  content : DataFrame
deriving DecidableEq, Repr

/-- One run of the prepare stage at wall-clock time `t`: the version stamp
comes from the clock, the content only from the input artifact and the
(deterministic) external scaler. -/
def runPrepareStage (scale : Col → Col) (df : DataFrame) (t : Timestamp) :
    StageRun :=
  { versionId := fmtStr t, content := prepareDataset scale df }

/-! ## Row-count preservation through prepare

None of the prepare steps adds or removes rows: each column of the output
has the input row count. -/

def ColLengths (df : DataFrame) (n : Nat) : Prop := ∀ c ∈ df, c.2.length = n

/-! ## Concrete frames used as explicit inputs in the claim theorems -/

/-- A two-row frame fed to the feature store in the split scenario. -/
def fsSplit : FeatureStore :=
  mkFeatureStore
    [("tenure", [Cell.num 1, Cell.num 2]),
      ("Churn", [Cell.str "Yes", Cell.str "No"])]
    ⟨2024, 1, 1, 0, 0, 0⟩

/-- Three rows, no duplicate row. -/
def dfDupA : DataFrame :=
  [("a", [Cell.num 1, Cell.num 1, Cell.num 2]),
    ("b", [Cell.num 1, Cell.num 2, Cell.num 1])]

/-- Three rows, one duplicated row; column-wise statistics identical to
`dfDupA`. -/
def dfDupB : DataFrame :=
  [("a", [Cell.num 1, Cell.num 1, Cell.num 2]),
    ("b", [Cell.num 1, Cell.num 1, Cell.num 2])]

/-- The §8 scenario table: 10 rows, 2 duplicate rows, 1 null numeric
cell. -/
def dfScenario : DataFrame :=
  [("MonthlyCharges",
      [Cell.num 1, Cell.num 2, Cell.num 3, Cell.num 4, Cell.num 5,
        Cell.null, Cell.num 7, Cell.num 8, Cell.num 1, Cell.num 2]),
    ("plan",
      [Cell.str "x", Cell.str "y", Cell.str "x", Cell.str "y", Cell.str "x",
        Cell.str "y", Cell.str "x", Cell.str "y", Cell.str "x", Cell.str "y"])]


/-- Characters with equal code points are equal. -/
theorem Char.eq_of_toNat_eq {a b : Char} (h : a.toNat = b.toNat) : a = b := by
  cases a; cases b
  simp only [Char.toNat] at h
  congr 1
  exact UInt32.ext h

theorem lexLt_irrefl (xs : List Char) : lexLt xs xs = false := by
  induction xs with
  | nil => rfl
  | cons a as ih => simp [lexLt, ih]

theorem lexLt_asymm {xs ys : List Char} (h : lexLt xs ys = true) :
    lexLt ys xs = false := by
  induction xs generalizing ys with
  | nil =>
    cases ys with
    | nil => simp [lexLt] at h
    | cons b bs => simp [lexLt]
  | cons a as ih =>
    cases ys with
    | nil => simp [lexLt] at h
    | cons b bs =>
      by_cases hab : a.toNat < b.toNat
      · simp [lexLt, hab, Nat.lt_asymm hab, Nat.ne_of_gt hab]
      · by_cases hba : b.toNat < a.toNat
        · simp [lexLt, hab, hba] at h
        · have he : a.toNat = b.toNat := Nat.le_antisymm (Nat.le_of_not_lt hba) (Nat.le_of_not_lt hab)
          simp [lexLt, hab, hba] at h
          simp [lexLt, hab, hba, he, ih h]

theorem lexLt_trans {xs ys zs : List Char} (h1 : lexLt xs ys = true)
    (h2 : lexLt ys zs = true) : lexLt xs zs = true := by
  induction xs generalizing ys zs with
  | nil =>
    cases ys with
    | nil => simp [lexLt] at h1
    | cons b bs =>
      cases zs with
      | nil => simp [lexLt] at h2
      | cons c cs => simp [lexLt]
  | cons a as ih =>
    cases ys with
    | nil => simp [lexLt] at h1
    | cons b bs =>
      cases zs with
      | nil => simp [lexLt] at h2
      | cons c cs =>
        by_cases hab : a.toNat < b.toNat
        · by_cases hbc : b.toNat < c.toNat
          · simp [lexLt, Nat.lt_trans hab hbc]
          · by_cases hcb : c.toNat < b.toNat
            · simp [lexLt, hbc, hcb] at h2
            · have he : b.toNat = c.toNat :=
                Nat.le_antisymm (Nat.le_of_not_lt hcb) (Nat.le_of_not_lt hbc)
              simp [lexLt, he ▸ hab]
        · by_cases hba : b.toNat < a.toNat
          · simp [lexLt, hab, hba] at h1
          · have he : a.toNat = b.toNat :=
              Nat.le_antisymm (Nat.le_of_not_lt hba) (Nat.le_of_not_lt hab)
            simp [lexLt, hab, hba] at h1
            by_cases hbc : b.toNat < c.toNat
            · simp [lexLt, he ▸ hbc]
            · by_cases hcb : c.toNat < b.toNat
              · simp [lexLt, hbc, hcb] at h2
              · have he2 : b.toNat = c.toNat :=
                  Nat.le_antisymm (Nat.le_of_not_lt hcb) (Nat.le_of_not_lt hbc)
                simp [lexLt, hbc, hcb] at h2
                have hac : a.toNat = c.toNat := he.trans he2
                simp [lexLt, hac, Nat.lt_irrefl, ih h1 h2]

theorem lexLt_conn {xs ys : List Char} (h1 : lexLt xs ys = false)
    (h2 : lexLt ys xs = false) : xs = ys := by
  induction xs generalizing ys with
  | nil =>
    cases ys with
    | nil => rfl
    | cons b bs => simp [lexLt] at h1
  | cons a as ih =>
    cases ys with
    | nil => simp [lexLt] at h2
    | cons b bs =>
      by_cases hab : a.toNat < b.toNat
      · simp [lexLt, hab] at h1
      · by_cases hba : b.toNat < a.toNat
        · simp [lexLt, hba, Nat.lt_asymm hba, Nat.ne_of_gt hba] at h2
        · have he : a.toNat = b.toNat :=
            Nat.le_antisymm (Nat.le_of_not_lt hba) (Nat.le_of_not_lt hab)
          simp [lexLt, hab, hba] at h1
          simp [lexLt, hba, hab] at h2
          exact by rw [Char.eq_of_toNat_eq he, ih h1 h2]

theorem padDigits_length (w n : Nat) : (padDigits w n).length = w := by
  induction w generalizing n with
  | zero => rfl
  | succ w ih => simp [padDigits, ih]

theorem digitChar_toNat (d : Nat) (h : d < 10) : (digitChar d).toNat = 48 + d := by
  interval_cases d <;> rfl

/-- Comparison of two equal-width zero-padded numerals is numeric comparison
of the digits appended, split at the append. -/
theorem lexLt_append_eqlen (xs ys u v : List Char) (h : xs.length = ys.length) :
    lexLt (xs ++ u) (ys ++ v) =
      (lexLt xs ys || (decide (xs = ys) && lexLt u v)) := by
  induction xs generalizing ys with
  | nil =>
    cases ys with
    | nil => simp [lexLt]
    | cons b bs => simp at h
  | cons a as ih =>
    cases ys with
    | nil => simp at h
    | cons b bs =>
      simp only [List.length_cons, Nat.succ_inj] at h
      by_cases hab : a.toNat < b.toNat
      · simp [lexLt, hab]
      · by_cases hba : b.toNat < a.toNat
        · have hne : a ≠ b := fun hc =>
            absurd (congrArg Char.toNat hc) (Nat.ne_of_gt hba)
          simp [lexLt, hab, hba, hne]
        · have he : a = b := Char.eq_of_toNat_eq
            (Nat.le_antisymm (Nat.le_of_not_lt hba) (Nat.le_of_not_lt hab))
          subst he
          simp [lexLt, List.cons_append, ih bs h]

theorem padDigits_inj {w a b : Nat} (ha : a < 10 ^ w) (hb : b < 10 ^ w)
    (h : padDigits w a = padDigits w b) : a = b := by
  induction w generalizing a b with
  | zero => omega
  | succ w ih =>
    have h10 : (10 : Nat) ^ (w + 1) = 10 ^ w * 10 := by ring
    have hlen : (padDigits w (a / 10)).length = (padDigits w (b / 10)).length := by
      simp [padDigits_length]
    simp only [padDigits] at h
    rcases List.append_inj h hlen with ⟨h1, h2⟩
    have hdiv : a / 10 = b / 10 := ih (by omega) (by omega) h1
    have hmod : a % 10 = b % 10 := by
      have hma : a % 10 < 10 := Nat.mod_lt _ (by norm_num)
      have hmb : b % 10 < 10 := Nat.mod_lt _ (by norm_num)
      injection h2 with hh _
      have := congrArg Char.toNat hh
      rw [digitChar_toNat _ hma, digitChar_toNat _ hmb] at this
      omega
    omega

/-- Numeric order of equal-width zero-padded numerals is their lexicographic
order as text. -/
theorem lexLt_padDigits {w a b : Nat} (ha : a < 10 ^ w) (hb : b < 10 ^ w) :
    lexLt (padDigits w a) (padDigits w b) = decide (a < b) := by
  induction w generalizing a b with
  | zero =>
    have hz : a = 0 ∧ b = 0 := by omega
    simp [hz.1, hz.2, padDigits, lexLt]
  | succ w ih =>
    have h10 : (10 : Nat) ^ (w + 1) = 10 ^ w * 10 := by ring
    have hda : a / 10 < 10 ^ w := by omega
    have hdb : b / 10 < 10 ^ w := by omega
    have hma : a % 10 < 10 := Nat.mod_lt _ (by norm_num)
    have hmb : b % 10 < 10 := Nat.mod_lt _ (by norm_num)
    simp only [padDigits]
    rw [lexLt_append_eqlen _ _ _ _ (by simp [padDigits_length])]
    rw [ih hda hdb]
    have hdigit : lexLt [digitChar (a % 10)] [digitChar (b % 10)] =
        decide (a % 10 < b % 10) := by
      simp only [lexLt]
      rw [digitChar_toNat _ hma, digitChar_toNat _ hmb]
      by_cases h1 : a % 10 < b % 10
      · simp [h1, show 48 + a % 10 < 48 + b % 10 by omega]
      · by_cases h2 : b % 10 < a % 10
        · simp [h1, h2, show ¬(48 + a % 10 < 48 + b % 10) by omega,
            show 48 + b % 10 < 48 + a % 10 by omega]
        · simp [h1, show ¬(48 + a % 10 < 48 + b % 10) by omega,
            show ¬(48 + b % 10 < 48 + a % 10) by omega]
    rw [hdigit]
    by_cases hd : a / 10 < b / 10
    · simp [hd, show a < b by omega]
    · by_cases hdeq : a / 10 = b / 10
      · have hpe : padDigits w (a / 10) = padDigits w (b / 10) := by rw [hdeq]
        simp [hd, hpe]
        omega
      · have hne : padDigits w (a / 10) ≠ padDigits w (b / 10) := by
          intro hc; exact hdeq (padDigits_inj hda hdb hc)
        simp [hd, hne, show ¬(a < b) by omega]

theorem lexLt_pad2 {a b : Nat} (ha : a < 100) (hb : b < 100) :
    lexLt (padDigits 2 a) (padDigits 2 b) = decide (a < b) := by
  have h2 : (100 : Nat) = 10 ^ 2 := by norm_num
  exact lexLt_padDigits (h2 ▸ ha) (h2 ▸ hb)

theorem lexLt_pad4 {a b : Nat} (ha : a < 10000) (hb : b < 10000) :
    lexLt (padDigits 4 a) (padDigits 4 b) = decide (a < b) := by
  have h4 : (10000 : Nat) = 10 ^ 4 := by norm_num
  exact lexLt_padDigits (h4 ▸ ha) (h4 ▸ hb)

theorem pad2_eq_decide {a b : Nat} (ha : a < 100) (hb : b < 100) :
    decide (padDigits 2 a = padDigits 2 b) = decide (a = b) := by
  have h2 : (100 : Nat) = 10 ^ 2 := by norm_num
  exact decide_eq_decide.mpr
    ⟨fun h => padDigits_inj (h2 ▸ ha) (h2 ▸ hb) h, fun h => by rw [h]⟩

theorem pad4_eq_decide {a b : Nat} (ha : a < 10000) (hb : b < 10000) :
    decide (padDigits 4 a = padDigits 4 b) = decide (a = b) := by
  have h4 : (10000 : Nat) = 10 ^ 4 := by norm_num
  exact decide_eq_decide.mpr
    ⟨fun h => padDigits_inj (h4 ▸ ha) (h4 ▸ hb) h, fun h => by rw [h]⟩

/-- The `%Y%m%d_%H%M%S` identifiers compare as text exactly the way the
underlying creation times compare: the format is fixed-width, zero-padded,
most-significant-first, so lexicographic string order equals time order. -/
theorem lexLt_fmtTimestamp {a b : Timestamp} (ha : a.valid) (hb : b.valid) :
    lexLt (fmtTimestamp a) (fmtTimestamp b) = Timestamp.ltb a b := by
  obtain ⟨hy, hmo, hd, hh, hmi, hs⟩ := ha
  obtain ⟨hy', hmo', hd', hh', hmi', hs'⟩ := hb
  have t6 : lexLt (padDigits 2 a.minute ++ padDigits 2 a.second)
      (padDigits 2 b.minute ++ padDigits 2 b.second) =
      (decide (a.minute < b.minute) ||
        (decide (a.minute = b.minute) && decide (a.second < b.second))) := by
    rw [lexLt_append_eqlen _ _ _ _ (by simp [padDigits_length]),
      lexLt_pad2 hmi hmi', pad2_eq_decide hmi hmi', lexLt_pad2 hs hs']
  have t5 : lexLt
      (padDigits 2 a.hour ++ (padDigits 2 a.minute ++ padDigits 2 a.second))
      (padDigits 2 b.hour ++ (padDigits 2 b.minute ++ padDigits 2 b.second)) =
      (decide (a.hour < b.hour) || (decide (a.hour = b.hour) &&
        (decide (a.minute < b.minute) ||
          (decide (a.minute = b.minute) && decide (a.second < b.second))))) := by
    rw [lexLt_append_eqlen _ _ _ _ (by simp [padDigits_length]),
      lexLt_pad2 hh hh', pad2_eq_decide hh hh', t6]
  have t4 : lexLt
      ('_' :: (padDigits 2 a.hour ++ (padDigits 2 a.minute ++ padDigits 2 a.second)))
      ('_' :: (padDigits 2 b.hour ++ (padDigits 2 b.minute ++ padDigits 2 b.second))) =
      (decide (a.hour < b.hour) || (decide (a.hour = b.hour) &&
        (decide (a.minute < b.minute) ||
          (decide (a.minute = b.minute) && decide (a.second < b.second))))) := by
    simp only [lexLt, Nat.lt_irrefl, if_false]
    exact t5
  have t3 : lexLt
      (padDigits 2 a.day ++
        ('_' :: (padDigits 2 a.hour ++ (padDigits 2 a.minute ++ padDigits 2 a.second))))
      (padDigits 2 b.day ++
        ('_' :: (padDigits 2 b.hour ++ (padDigits 2 b.minute ++ padDigits 2 b.second)))) =
      (decide (a.day < b.day) || (decide (a.day = b.day) &&
        (decide (a.hour < b.hour) || (decide (a.hour = b.hour) &&
          (decide (a.minute < b.minute) ||
            (decide (a.minute = b.minute) && decide (a.second < b.second))))))) := by
    rw [lexLt_append_eqlen _ _ _ _ (by simp [padDigits_length]),
      lexLt_pad2 hd hd', pad2_eq_decide hd hd', t4]
  have t2 : lexLt
      (padDigits 2 a.month ++ (padDigits 2 a.day ++
        ('_' :: (padDigits 2 a.hour ++ (padDigits 2 a.minute ++ padDigits 2 a.second)))))
      (padDigits 2 b.month ++ (padDigits 2 b.day ++
        ('_' :: (padDigits 2 b.hour ++ (padDigits 2 b.minute ++ padDigits 2 b.second))))) =
      (decide (a.month < b.month) || (decide (a.month = b.month) &&
        (decide (a.day < b.day) || (decide (a.day = b.day) &&
          (decide (a.hour < b.hour) || (decide (a.hour = b.hour) &&
            (decide (a.minute < b.minute) ||
              (decide (a.minute = b.minute) && decide (a.second < b.second))))))))) := by
    rw [lexLt_append_eqlen _ _ _ _ (by simp [padDigits_length]),
      lexLt_pad2 hmo hmo', pad2_eq_decide hmo hmo', t3]
  simp only [fmtTimestamp]
  rw [lexLt_append_eqlen _ _ _ _ (by simp [padDigits_length]),
    lexLt_pad4 hy hy', pad4_eq_decide hy hy', t2]
  rfl

theorem strLt_irrefl (s : String) : strLt s s = false := lexLt_irrefl s.data

theorem strLt_trans {a b c : String} (h1 : strLt a b = true)
    (h2 : strLt b c = true) : strLt a c = true := lexLt_trans h1 h2

theorem strLt_conn {a b : String} (h1 : strLt a b = false)
    (h2 : strLt b a = false) : a = b := by
  cases a; cases b
  exact congrArg String.mk (lexLt_conn h1 h2)

theorem mem_insertAsc {x a : String} {l : List String} :
    x ∈ insertAsc a l ↔ x = a ∨ x ∈ l := by
  induction l with
  | nil => simp [insertAsc]
  | cons t ts ih =>
    by_cases h : strLt a t
    · simp [insertAsc, h]
    · simp [insertAsc, h, ih]
      tauto

theorem insertAsc_ne_nil (a : String) (l : List String) : insertAsc a l ≠ [] := by
  cases l with
  | nil => simp [insertAsc]
  | cons t ts =>
    by_cases h : strLt a t <;> simp [insertAsc, h]

theorem mem_sortAsc {x : String} {l : List String} : x ∈ sortAsc l ↔ x ∈ l := by
  induction l with
  | nil => simp [sortAsc]
  | cons a as ih =>
    show x ∈ insertAsc a (sortAsc as) ↔ _
    rw [mem_insertAsc]
    simp [ih]

/-- The lexicographic maximum sits at the head of the descending sort:
`sorted(l, reverse=True)[0]` is a member no other member exceeds. -/
theorem latestVersion_max (l : List String) (h : l ≠ []) :
    ∃ m, latestVersion l = some m ∧ m ∈ l ∧ ∀ v ∈ l, strLt m v = false := by
  induction l with
  | nil => exact absurd rfl h
  | cons a rest ih =>
    cases rest with
    | nil =>
      refine ⟨a, rfl, List.mem_singleton.mpr rfl, ?_⟩
      intro v hv
      rw [List.mem_singleton.mp hv]
      exact strLt_irrefl a
    | cons b bs =>
      obtain ⟨m, hm, hmem, hmax⟩ := ih (by simp)
      have hs : sortDesc (b :: bs) ≠ [] := by
        intro hc
        rw [latestVersion, hc] at hm
        simp at hm
      obtain ⟨ms, hms⟩ : ∃ ms, sortDesc (b :: bs) = m :: ms := by
        cases hsd : sortDesc (b :: bs) with
        | nil => exact absurd hsd hs
        | cons x xs =>
          rw [latestVersion, hsd] at hm
          simp at hm
          exact ⟨xs, by rw [hm]⟩
      have hstep : sortDesc (a :: b :: bs) = insertDesc a (m :: ms) := by
        show insertDesc a (sortDesc (b :: bs)) = _
        rw [hms]
      by_cases hma : strLt m a
      · refine ⟨a, ?_, List.mem_cons_self a _, ?_⟩
        · rw [latestVersion, hstep]
          simp [insertDesc, hma]
        · intro v hv
          rcases List.mem_cons.mp hv with hva | hvr
          · rw [hva]; exact strLt_irrefl a
          · by_contra hc
            have hav : strLt a v = true := by
              cases hv2 : strLt a v
              · exact absurd hv2 hc
              · rfl
            have : strLt m v = true := strLt_trans hma hav
            rw [hmax v hvr] at this
            exact Bool.false_ne_true this
      · refine ⟨m, ?_, List.mem_cons_of_mem a hmem, ?_⟩
        · rw [latestVersion, hstep]
          have hma' : strLt m a = false := by
            cases hv2 : strLt m a
            · rfl
            · exact absurd hv2 hma
          simp [insertDesc, hma']
        · intro v hv
          rcases List.mem_cons.mp hv with hva | hvr
          · rw [hva]
            cases hv2 : strLt m a
            · rfl
            · exact absurd hv2 hma
          · exact hmax v hvr

theorem getLast?_cons_cons (a b : String) (l : List String) :
    (a :: b :: l).getLast? = (b :: l).getLast? := rfl

/-- Inserting a value no larger than the last element of an ascending-sorted
list leaves the last element unchanged. -/
theorem getLast?_insertAsc {a m : String} {s : List String}
    (hlast : s.getLast? = some m) (hma : strLt m a = false) :
    (insertAsc a s).getLast? = some m := by
  induction s with
  | nil => simp at hlast
  | cons t ts ih =>
    cases ts with
    | nil =>
      simp at hlast
      subst hlast
      by_cases h : strLt a t
      · simp [insertAsc, h]
      · have ha : strLt a t = false := by
          cases hv : strLt a t
          · rfl
          · exact absurd hv h
        have : a = t := strLt_conn ha hma
        simp [insertAsc, h, this]
    | cons t2 ts2 =>
      rw [getLast?_cons_cons] at hlast
      by_cases h : strLt a t
      · simp only [insertAsc, h, if_true]
        rw [getLast?_cons_cons, getLast?_cons_cons]
        exact hlast
      · rw [show insertAsc a (t :: t2 :: ts2) = t :: insertAsc a (t2 :: ts2) from by
          simp [insertAsc, h]]
        cases hins : insertAsc a (t2 :: ts2) with
        | nil => exact absurd hins (insertAsc_ne_nil _ _)
        | cons y ys =>
          have ihh := ih hlast
          rw [hins] at ihh
          exact ihh

/-- If the inserted value exceeds everything in the list, it lands at the
end. -/
theorem insertAsc_append_of_max {a : String} {s : List String}
    (h : ∀ t ∈ s, strLt a t = false) : insertAsc a s = s ++ [a] := by
  induction s with
  | nil => rfl
  | cons t ts ih =>
    have ht : strLt a t = false := h t (List.mem_cons_self t ts)
    simp only [insertAsc, ht, Bool.false_eq_true, if_false, List.cons_append]
    rw [ih (fun u hu => h u (List.mem_cons_of_mem t hu))]

/-- The lexicographic maximum sits at the end of the ascending sort:
`l.sort(); l[-1]` is a member no other member exceeds. -/
theorem lastVersion_max (l : List String) (h : l ≠ []) :
    ∃ m, (sortAsc l).getLast? = some m ∧ m ∈ l ∧ ∀ v ∈ l, strLt m v = false := by
  induction l with
  | nil => exact absurd rfl h
  | cons a rest ih =>
    cases rest with
    | nil =>
      refine ⟨a, rfl, List.mem_singleton.mpr rfl, ?_⟩
      intro v hv
      rw [List.mem_singleton.mp hv]
      exact strLt_irrefl a
    | cons b bs =>
      obtain ⟨m, hm, hmem, hmax⟩ := ih (by simp)
      have hstep : sortAsc (a :: b :: bs) = insertAsc a (sortAsc (b :: bs)) := rfl
      by_cases hma : strLt m a
      · have hall : ∀ t ∈ sortAsc (b :: bs), strLt a t = false := by
          intro t ht
          have htr : t ∈ b :: bs := mem_sortAsc.mp ht
          by_contra hc
          have hat : strLt a t = true := by
            cases hv2 : strLt a t
            · exact absurd hv2 hc
            · rfl
          have : strLt m t = true := strLt_trans hma hat
          rw [hmax t htr] at this
          exact Bool.false_ne_true this
        refine ⟨a, ?_, List.mem_cons_self a _, ?_⟩
        · rw [hstep, insertAsc_append_of_max hall]
          exact List.getLast?_concat _
        · intro v hv
          rcases List.mem_cons.mp hv with hva | hvr
          · rw [hva]; exact strLt_irrefl a
          · exact hall v (mem_sortAsc.mpr hvr)
      · have hma' : strLt m a = false := by
          cases hv2 : strLt m a
          · rfl
          · exact absurd hv2 hma
        refine ⟨m, ?_, List.mem_cons_of_mem a hmem, ?_⟩
        · rw [hstep]
          exact getLast?_insertAsc hm hma'
        · intro v hv
          rcases List.mem_cons.mp hv with hva | hvr
          · rw [hva]; exact hma'
          · exact hmax v hvr

/-! ## Association-store lemmas -/

theorem lookupA_map_update {α : Type} (k : String) (f : α → α)
    (l : List (String × α)) :
    lookupA k (l.map (fun p => if p.1 == k then (p.1, f p.2) else p)) =
      (lookupA k l).map f := by
  induction l with
  | nil => rfl
  | cons p ps ih =>
    by_cases hp : p.1 == k
    · simp only [List.map_cons, if_pos hp]
      simp only [lookupA, hp, if_pos]
      rfl
    · simp only [List.map_cons, if_neg hp]
      simp only [lookupA, hp, Bool.false_eq_true, if_neg, if_false]
      exact ih

theorem lookupA_eq_none_of_any_false {α : Type} {k : String}
    {l : List (String × α)} (h : l.any (fun p => p.1 == k) = false) :
    lookupA k l = none := by
  induction l with
  | nil => rfl
  | cons p ps ih =>
    simp only [List.any_cons, Bool.or_eq_false_iff] at h
    simp only [lookupA, h.1, Bool.false_eq_true, if_false]
    exact ih h.2

theorem lookupA_append_of_none {α : Type} {k : String} {l : List (String × α)}
    (h : lookupA k l = none) (l2 : List (String × α)) :
    lookupA k (l ++ l2) = lookupA k l2 := by
  induction l with
  | nil => rfl
  | cons p ps ih =>
    by_cases hp : p.1 == k
    · simp [lookupA, hp] at h
    · simp only [lookupA, hp, Bool.false_eq_true, if_false] at h
      simp only [List.cons_append, lookupA, hp, Bool.false_eq_true, if_false]
      exact ih h

theorem lookupA_isSome_eq_any {α : Type} (k : String) (l : List (String × α)) :
    (lookupA k l).isSome = l.any (fun p => p.1 == k) := by
  induction l with
  | nil => rfl
  | cons p ps ih =>
    by_cases hp : p.1 == k
    · simp [lookupA, hp]
    · simp only [lookupA, hp, Bool.false_eq_true, if_false, List.any_cons,
        Bool.false_or]
      exact ih

/-- Updating key `k` then looking it up yields the update applied to the old
value (or to the default when the key was absent). -/
theorem lookupA_updateA_self {α : Type} (k : String) (d : α) (f : α → α)
    (l : List (String × α)) :
    lookupA k (updateA k d f l) = some (f ((lookupA k l).getD d)) := by
  unfold updateA
  by_cases hany : l.any (fun p => p.1 == k)
  · rw [if_pos hany, lookupA_map_update]
    have hsome : (lookupA k l).isSome = true := by
      rw [lookupA_isSome_eq_any]; exact hany
    cases hv : lookupA k l with
    | none => rw [hv] at hsome; simp at hsome
    | some v => rfl
  · have hnone : lookupA k l = none :=
      lookupA_eq_none_of_any_false (Bool.of_not_eq_true hany)
    rw [if_neg hany, lookupA_append_of_none hnone, hnone]
    simp [lookupA]

theorem hasFile_putFile_self (s : FileStore) (p : String) (c : DataFrame) :
    hasFile (putFile s p c) p = true := by
  rw [hasFile, ← lookupA_isSome_eq_any, putFile, lookupA_updateA_self]
  rfl

theorem any_pointwise {α : Type} {p q : α → Bool} :
    ∀ l : List α, (∀ x ∈ l, p x = q x) → l.any p = l.any q := by
  intro l
  induction l with
  | nil => intro _; rfl
  | cons a as ih =>
    intro h
    simp only [List.any_cons, h a (List.mem_cons_self a as),
      ih (fun x hx => h x (List.mem_cons_of_mem a hx))]

theorem hasFile_putFile_mono {s : FileStore} {q : String}
    (h : hasFile s q = true) (p : String) (c : DataFrame) :
    hasFile (putFile s p c) q = true := by
  rw [hasFile] at h ⊢
  rw [putFile]
  unfold updateA
  by_cases hany : s.any (fun x => x.1 == p)
  · rw [if_pos hany, List.any_map]
    have hcong : s.any ((fun x => x.1 == q) ∘
        (fun x => if x.1 == p then (x.1, c) else x)) = s.any (fun x => x.1 == q) := by
      apply any_pointwise
      intro x _
      by_cases hx : x.1 == p <;> simp [Function.comp, hx]
    rw [hcong]
    exact h
  · rw [if_neg hany, List.any_append, h, Bool.true_or]

theorem length_fillnaMedian (c : Col) : (fillnaMedian c).length = c.length := by
  unfold fillnaMedian
  cases medianCol c <;> simp

theorem colLengths_map {df : DataFrame} {n : Nat} (hwf : ColLengths df n)
    (g : String × Col → String × Col) (hg : ∀ c, ((g c).2).length = c.2.length) :
    ColLengths (df.map g) n := by
  intro c hc
  rcases List.mem_map.mp hc with ⟨c0, hc0, rfl⟩
  rw [hg c0]
  exact hwf c0 hc0

theorem colLengths_filter {df : DataFrame} {n : Nat} (hwf : ColLengths df n)
    (p : String × Col → Bool) : ColLengths (df.filter p) n :=
  fun c hc => hwf c (List.mem_filter.mp hc).1

theorem colLengths_prepStep1 {df : DataFrame} {n : Nat} (hwf : ColLengths df n) :
    ColLengths (prepStep1 df) n := by
  apply colLengths_map hwf
  intro c
  by_cases h : isNumericCol c.2 <;> simp [h, length_fillnaMedian]

theorem colLengths_prepStep2 {df : DataFrame} {n : Nat} (hwf : ColLengths df n) :
    ColLengths (prepStep2 df) n := by
  unfold prepStep2
  by_cases h : df.any (fun c => c.1 == "TotalCharges")
  · rw [if_pos h]
    apply colLengths_map hwf
    intro c
    by_cases hc : c.1 == "TotalCharges" <;> simp [hc, length_fillnaMedian]
  · rw [if_neg h]; exact hwf

theorem colLengths_prepStep3 {df : DataFrame} {n : Nat} (hwf : ColLengths df n) :
    ColLengths (prepStep3 df) n := by
  unfold prepStep3
  by_cases h : df.any (fun c => c.1 == "Churn")
  · rw [if_pos h]
    apply colLengths_map hwf
    intro c
    by_cases hc : c.1 == "Churn" <;> simp [hc]
  · rw [if_neg h]; exact hwf

theorem colLengths_getDummies {df : DataFrame} {n : Nat} (hwf : ColLengths df n)
    (cats : List String) : ColLengths (getDummies cats df) n := by
  intro c hc
  unfold getDummies at hc
  rcases List.mem_append.mp hc with hl | hr
  · exact colLengths_filter hwf _ c hl
  · rcases List.mem_flatMap.mp hr with ⟨c0, hc0, hcd⟩
    unfold dummyCols at hcd
    rcases List.mem_map.mp hcd with ⟨v, _, rfl⟩
    simp only [List.length_map]
    exact colLengths_filter hwf _ c0 hc0

theorem colLengths_prepStep6 {df : DataFrame} {n : Nat} (hwf : ColLengths df n)
    (scale : Col → Col) (hscale : ∀ xs : Col, (scale xs).length = xs.length) :
    ColLengths (prepStep6 scale df) n := by
  apply colLengths_map hwf
  intro c
  by_cases h : isNumericCol c.2 <;> simp [h, hscale]

/-- prepare never adds or drops a row: every column of the prepared frame
has the input row count (in particular no deduplication happens). -/
theorem colLengths_prepareDataset {df : DataFrame} {n : Nat}
    (hwf : ColLengths df n) (scale : Col → Col)
    (hscale : ∀ xs : Col, (scale xs).length = xs.length) :
    ColLengths (prepareDataset scale df) n :=
  colLengths_prepStep6
    (colLengths_getDummies
      (colLengths_filter (colLengths_prepStep3 (colLengths_prepStep2
        (colLengths_prepStep1 hwf))) _) _) scale hscale

/-! # Claim theorems -/

/-- C6: the version-identifier formatting (creation time rendered as
`%Y%m%d_%H%M%S`) is strictly monotone with respect to creation time at
second granularity: for times `t1 < t2` (differing by at least one second,
which is exactly `Timestamp.ltb t1 t2`), the identifier of `t1` is
lexicographically smaller than that of `t2` and the two are distinct; more
generally lexicographic string order on identifiers equals creation-time
order, so two runs started one second apart never collide. -/
theorem version_format_strictly_monotone (t1 t2 : Timestamp)
    (h1 : t1.valid) (h2 : t2.valid) :
    strLt (fmtStr t1) (fmtStr t2) = Timestamp.ltb t1 t2
    ∧ (Timestamp.ltb t1 t2 = true →
        strLt (fmtStr t1) (fmtStr t2) = true ∧ fmtStr t1 ≠ fmtStr t2) := by
  have hmono : strLt (fmtStr t1) (fmtStr t2) = Timestamp.ltb t1 t2 :=
    lexLt_fmtTimestamp h1 h2
  refine ⟨hmono, fun hlt => ⟨hmono.trans hlt, ?_⟩⟩
  intro hc
  have hfalse : strLt (fmtStr t1) (fmtStr t2) = false := by
    rw [hc]; exact strLt_irrefl _
  rw [hmono, hlt] at hfalse
  exact Bool.noConfusion hfalse

/-- C6 witness: two concrete creation times one second apart produce
distinct identifiers in the right lexicographic order. -/
theorem version_format_strictly_monotone_witness :
    strLt (fmtStr ⟨2024, 5, 17, 13, 59, 59⟩) (fmtStr ⟨2024, 5, 17, 14, 0, 0⟩) = true
    ∧ fmtStr ⟨2024, 5, 17, 13, 59, 59⟩ ≠ fmtStr ⟨2024, 5, 17, 14, 0, 0⟩ :=
  (version_format_strictly_monotone ⟨2024, 5, 17, 13, 59, 59⟩ ⟨2024, 5, 17, 14, 0, 0⟩
    (by decide) (by decide)).2 (by decide)

/-- C1: latest-version resolution returns the lexicographic maximum of the
existing version identifiers: `get_latest_file`'s
`sorted(listing, reverse=True)[0]` picks a member no other member exceeds;
in particular a category holding the identifiers of times `t1 < t2`
resolves to the identifier of `t2`; and `get_latest_timestamp` picks the
lexicographically maximal matching warehouse filename and returns its
embedded timestamp. -/
theorem latest_resolution_is_lex_max :
    (∀ versions : List String, versions ≠ [] →
      ∃ m, latestVersion versions = some m ∧ m ∈ versions ∧
        ∀ v ∈ versions, strLt m v = false)
    ∧ (∀ t1 t2 : Timestamp, t1.valid → t2.valid → Timestamp.ltb t1 t2 = true →
        latestVersion [fmtStr t1, fmtStr t2] = some (fmtStr t2))
    ∧ (∀ files : List String, files.filter matchesXtrain ≠ [] →
        ∃ f, f ∈ files ∧ matchesXtrain f = true ∧
          (∀ g ∈ files, matchesXtrain g = true → strLt f g = false) ∧
          getLatestTimestamp files = .ok (extractTs f)) := by
  refine ⟨latestVersion_max, ?_, ?_⟩
  · intro t1 t2 h1 h2 hlt
    have hab : strLt (fmtStr t1) (fmtStr t2) = true :=
      (lexLt_fmtTimestamp h1 h2).trans hlt
    have hba : strLt (fmtStr t2) (fmtStr t1) = false := lexLt_asymm hab
    show (insertDesc (fmtStr t1) (insertDesc (fmtStr t2) [])).head? = some (fmtStr t2)
    simp [insertDesc, hba]
  · intro files hf
    obtain ⟨m, hm, hmem, hmax⟩ := lastVersion_max _ hf
    rcases List.mem_filter.mp hmem with ⟨hmf, hmm⟩
    refine ⟨m, hmf, hmm, ?_, ?_⟩
    · intro g hg hmg
      exact hmax g (List.mem_filter.mpr ⟨hg, hmg⟩)
    · unfold getLatestTimestamp
      rw [hm]

/-- C1 witness: concrete resolutions — a two-version category, the
two-identifier scenario, and a one-file warehouse. -/
theorem latest_resolution_is_lex_max_witness :
    (∃ m, latestVersion ["20240101_000000", "20240102_000000"] = some m ∧
      m ∈ ["20240101_000000", "20240102_000000"] ∧
      ∀ v ∈ ["20240101_000000", "20240102_000000"], strLt m v = false)
    ∧ latestVersion [fmtStr ⟨2024, 1, 1, 0, 0, 0⟩, fmtStr ⟨2024, 1, 1, 0, 0, 1⟩] =
        some (fmtStr ⟨2024, 1, 1, 0, 0, 1⟩)
    ∧ (∃ f, f ∈ ["X_train_20240101_000000.csv"] ∧ matchesXtrain f = true ∧
        (∀ g ∈ ["X_train_20240101_000000.csv"], matchesXtrain g = true →
          strLt f g = false) ∧
        getLatestTimestamp ["X_train_20240101_000000.csv"] = .ok (extractTs f)) :=
  ⟨latest_resolution_is_lex_max.1 ["20240101_000000", "20240102_000000"] (by decide),
   latest_resolution_is_lex_max.2.1 ⟨2024, 1, 1, 0, 0, 0⟩ ⟨2024, 1, 1, 0, 0, 1⟩
     (by decide) (by decide) (by decide),
   latest_resolution_is_lex_max.2.2 ["X_train_20240101_000000.csv"] (by decide)⟩

/-- C10: for every feature-store state and feature name, `get_feature`
returns the named column exactly when the name is among the frame's
columns, raises `ValueError` exactly when it is absent, and leaves the
stored frame unchanged in either case. -/
theorem get_feature_spec (fs : FeatureStore) (name : String) :
    ((FeatureStore.get_feature fs name).2 = fs)
    ∧ ((FeatureStore.get_feature fs name).1.isOk =
        fs.df.any (fun c => c.1 == name))
    ∧ (fs.df.any (fun c => c.1 == name) = true →
        (FeatureStore.get_feature fs name).1 = .ok ((lookupA name fs.df).getD []))
    ∧ (fs.df.any (fun c => c.1 == name) = false →
        (FeatureStore.get_feature fs name).1 =
          .error ("Feature '" ++ name ++ "' not found in feature store.")) := by
  by_cases h : fs.df.any (fun c => c.1 == name) <;>
    simp [FeatureStore.get_feature, h, Except.isOk, Except.toBool]

/-- C10 witness: a concrete store; present and absent feature names. -/
theorem get_feature_spec_witness :
    (FeatureStore.get_feature (mkFeatureStore [("tenure", [Cell.num 3])] ⟨2024, 1, 1, 0, 0, 0⟩)
        "tenure").1 = .ok [Cell.num 3]
    ∧ (FeatureStore.get_feature (mkFeatureStore [("tenure", [Cell.num 3])] ⟨2024, 1, 1, 0, 0, 0⟩)
        "gender").1 = .error ("Feature '" ++ "gender" ++ "' not found in feature store.") :=
  ⟨(get_feature_spec (mkFeatureStore [("tenure", [Cell.num 3])] ⟨2024, 1, 1, 0, 0, 0⟩)
      "tenure").2.2.1 (by decide),
   (get_feature_spec (mkFeatureStore [("tenure", [Cell.num 3])] ⟨2024, 1, 1, 0, 0, 0⟩)
      "gender").2.2.2 (by decide)⟩

/-- C7: two-run determinism of the data content — rerunning prepare on the
identical input artifact with the identical (deterministic, externally
fixed) scaler at two different wall-clock times yields identical content,
the runs differing only in the version identifier; likewise two
feature-store splits of the same frame at different times write identical
train/test content under names differing only in the timestamp. -/
theorem stage_two_run_determinism (scale : Col → Col) (perm : Nat → List Nat)
    (df : DataFrame) (targetCol : String) (t1 t2 : Timestamp) :
    ((runPrepareStage scale df t1).content = (runPrepareStage scale df t2).content)
    ∧ ((runPrepareStage scale df t1).versionId = fmtStr t1
        ∧ (runPrepareStage scale df t2).versionId = fmtStr t2)
    ∧ ((splitWrites perm (mkFeatureStore df t1) targetCol).map (·.2) =
        (splitWrites perm (mkFeatureStore df t2) targetCol).map (·.2))
    ∧ ((splitWrites perm (mkFeatureStore df t1) targetCol).map (·.1) =
        splitSetNames (fmtStr t1)) :=
  ⟨rfl, ⟨rfl, rfl⟩, rfl, rfl⟩

/-- C2 counterexample: validate sits on the mandatory chain, yet with the
upstream lake entirely absent `run_validation` completes as a vacuous
success carrying two warnings — it does not propagate the no-version error
as a fatal failure, contradicting the claim for mandatory-chain stages. -/
theorem mandatory_stage_soft_skips_cex :
    runValidation [] = StageOutcome.success
      ["No folders found in csv_source", "No folders found in api_source"]
    ∧ (runValidation []).isSuccess = true := by decide

/-- C2 amended: when the required upstream category is empty or its root is
missing, resolution fails with the no-version error, but validate (and
prepare/transform, which share the try/except structure) catches it, logs a
warning and vacuously succeeds even though it is on the mandatory chain;
only train's resolver raises the error uncaught, aborting that stage. -/
theorem no_version_policy (lake : Lake) (files : List String)
    (hnone : files.filter matchesXtrain = []) :
    (runValidation lake).isSuccess = true
    ∧ getLatestTimestamp files =
        .error "No versioned X_train file found. Run feature store first." := by
  refine ⟨rfl, ?_⟩
  unfold getLatestTimestamp
  rw [hnone]
  rfl

/-- C2 amended witness: an empty lake and a warehouse listing with no
matching versioned file. -/
theorem no_version_policy_witness :
    (runValidation []).isSuccess = true
    ∧ getLatestTimestamp ["model_performance.json"] =
        .error "No versioned X_train file found. Run feature store first." :=
  no_version_policy [] ["model_performance.json"] (by decide)

/-- C3 counterexample: during `store_file` the new version directory is
already visible to listing while it still contains no files — the write is
not staged under a temporary name and published atomically, so a reader can
observe the half-written (here: empty) artifact. -/
theorem atomic_publish_cex :
    ∃ s ∈ storeFileTrace [] ["churn.csv"] "churn.csv" "csv_source" "20240101_000000",
      "20240101_000000" ∈ listVersions s "csv_source"
        ∧ filesOfVersion s "csv_source" "20240101_000000" = some [] := by decide

/-- C3 amended: `store_file` does not stage: it creates the destination
version directory first — at that point the version is visible to listing
with no files in it — and only afterwards copies the file into place; no
temporary name or atomic rename is involved. -/
theorem store_file_publish_order (lake : Lake) (rawFiles : List String)
    (filename srcType ts : String)
    (hfresh : filesOfVersion lake srcType ts = none)
    (hsrc : filename ∈ rawFiles) :
    (∃ mid ∈ storeFileTrace lake rawFiles filename srcType ts,
        ts ∈ listVersions mid srcType
          ∧ filesOfVersion mid srcType ts = some [])
    ∧ (∃ fin, (storeFileTrace lake rawFiles filename srcType ts).getLast? = some fin
        ∧ filesOfVersion fin srcType ts = some [filename]) := by
  have hvd : lookupA ts ((lookupA srcType lake).getD []) = none := hfresh
  have hany : ((lookupA srcType lake).getD []).any (fun p => p.1 == ts) = false := by
    rw [← lookupA_isSome_eq_any, hvd]
    rfl
  have hmidlook : lookupA srcType (mkdirVersion lake srcType ts)
      = some ((lookupA srcType lake).getD [] ++ [(ts, [])]) := by
    unfold mkdirVersion
    rw [lookupA_updateA_self]
    simp [hany]
  have hmid_files : filesOfVersion (mkdirVersion lake srcType ts) srcType ts = some [] := by
    unfold filesOfVersion
    rw [hmidlook]
    show lookupA ts ((lookupA srcType lake).getD [] ++ [(ts, [])]) = some []
    rw [lookupA_append_of_none hvd]
    simp [lookupA]
  have hmid_ver : ts ∈ listVersions (mkdirVersion lake srcType ts) srcType := by
    unfold listVersions
    rw [hmidlook]
    simp
  constructor
  · refine ⟨mkdirVersion lake srcType ts, ?_, hmid_ver, hmid_files⟩
    unfold storeFileTrace
    simp [hsrc]
  · refine ⟨addFileToVersion (mkdirVersion lake srcType ts) srcType ts filename, ?_, ?_⟩
    · unfold storeFileTrace
      simp [hsrc]
    · unfold filesOfVersion addFileToVersion
      rw [lookupA_updateA_self]
      simp only [Option.getD_some]
      rw [hmidlook]
      simp only [Option.getD_some]
      rw [lookupA_updateA_self]
      have : lookupA ts ((lookupA srcType lake).getD [] ++ [(ts, [])]) = some [] := by
        rw [lookupA_append_of_none hvd]
        simp [lookupA]
      rw [this]
      simp

/-- C3 amended witness: storing `users.csv` into a fresh lake. -/
theorem store_file_publish_order_witness :
    (∃ mid ∈ storeFileTrace [] ["users.csv"] "users.csv" "api_source" "20240101_000000",
        "20240101_000000" ∈ listVersions mid "api_source"
          ∧ filesOfVersion mid "api_source" "20240101_000000" = some [])
    ∧ (∃ fin, (storeFileTrace [] ["users.csv"] "users.csv" "api_source"
          "20240101_000000").getLast? = some fin
        ∧ filesOfVersion fin "api_source" "20240101_000000" = some ["users.csv"]) :=
  store_file_publish_order [] ["users.csv"] "users.csv" "api_source" "20240101_000000"
    (by decide) (by decide)

/-- C4 counterexample: prepare writes its output to the fixed, version-free
path `data/processed/{name}_prepared.csv`; a second run on different input
replaces the first run's artifact at that very path — an in-place update of
an artifact written by an earlier run of the same stage. -/
theorem copy_on_write_cex :
    lookupFile (writePrepared id [] "churn" [("tenure", [Cell.num 1])])
        (preparedPath "churn")
      = some (prepareDataset id [("tenure", [Cell.num 1])])
    ∧ lookupFile (writePrepared id (writePrepared id [] "churn" [("tenure", [Cell.num 1])])
          "churn" [("tenure", [Cell.num 2])]) (preparedPath "churn")
      = some (prepareDataset id [("tenure", [Cell.num 2])])
    ∧ prepareDataset id [("tenure", [Cell.num 1])]
        ≠ prepareDataset id [("tenure", [Cell.num 2])] := by decide

/-- C4 amended: storage and feature-store writes are version-stamped, but
prepare writes the fixed unversioned path `{name}_prepared.csv` (and
transform `{name}_transformed.csv` plus a `to_sql(..., if_exists='replace')`
table), so rerunning the stage overwrites the same stage's earlier output in
place instead of creating a new version. -/
theorem prepare_rerun_overwrites (scale : Col → Col) (store : FileStore)
    (name : String) (dfA dfB : DataFrame) :
    hasFile (writePrepared scale store name dfA) (preparedPath name) = true
    ∧ lookupFile (writePrepared scale (writePrepared scale store name dfA) name dfB)
        (preparedPath name) = some (prepareDataset scale dfB) := by
  refine ⟨hasFile_putFile_self store (preparedPath name) (prepareDataset scale dfA), ?_⟩
  unfold writePrepared lookupFile putFile
  rw [lookupA_updateA_self]

/-- C5 counterexample: between the four sequential unstaged `to_csv` writes
of `split_and_store`, the warehouse holds a strict, non-empty subset of the
four co-versioned artifacts for the run's version identifier — exactly the
state the claim says is never produced (and the state that persists if a
write fails mid-stage). -/
theorem split_atomicity_cex :
    ∃ s ∈ splitStates (fun n => List.range n) fsSplit "Churn" [],
      splitSetStarted s fsSplit.timestamp = true
        ∧ splitSetComplete s fsSplit.timestamp = false := by decide

/-- C5 amended: an uninterrupted `split_and_store` run does create exactly
the four artifacts `X_train/X_test/y_train/y_test` sharing the store's one
timestamp; but the four writes are sequential with no staging, so
intermediate (or failure-abandoned) states hold only part of the set. -/
theorem split_writes_full_set (perm : Nat → List Nat) (fs : FeatureStore)
    (targetCol : String) (wh : FileStore) :
    ((splitWrites perm fs targetCol).map (·.1) = splitSetNames fs.timestamp)
    ∧ splitSetComplete (runSplitStore perm fs targetCol wh) fs.timestamp = true := by
  refine ⟨rfl, ?_⟩
  simp only [splitSetComplete, splitSetNames, List.all_cons, List.all_nil,
    Bool.and_true, Bool.and_eq_true]
  refine ⟨?_, ?_, ?_, ?_⟩
  · exact hasFile_putFile_mono (hasFile_putFile_mono (hasFile_putFile_mono
      (hasFile_putFile_self _ _ _) _ _) _ _) _ _
  · exact hasFile_putFile_mono (hasFile_putFile_mono
      (hasFile_putFile_self _ _ _) _ _) _ _
  · exact hasFile_putFile_mono (hasFile_putFile_self _ _ _) _ _
  · exact hasFile_putFile_self _ _ _

/-- C8 counterexample: the target encoding `df["Churn"].map({"Yes": 1,
"No": 0})` maps the out-of-domain value "Maybe" to a silent null — prepare
raises no validation failure and simply emits NaN in the target column. -/
theorem target_encoding_cex :
    prepareDataset id [("Churn", [Cell.str "Yes", Cell.str "No", Cell.str "Maybe"])]
      = [("Churn", [Cell.num 1, Cell.num 0, Cell.null])] := by decide

/-- C8 amended: the encoding maps exactly Yes to 1 and No to 0, and every
other target value (including missing) to null, silently; no validation
failure is raised by the prepare stage's encoding step. -/
theorem target_encoding_silent_null (s : String)
    (h1 : s ≠ "Yes") (h2 : s ≠ "No") :
    churnMap (Cell.str s) = Cell.null
    ∧ churnMap (Cell.str "Yes") = Cell.num 1
    ∧ churnMap (Cell.str "No") = Cell.num 0
    ∧ [Cell.str "Yes", Cell.str "No", Cell.str s].map churnMap
        = [Cell.num 1, Cell.num 0, Cell.null] := by
  simp [churnMap, h1, h2]

/-- C8 amended witness: the out-of-domain value "Maybe". -/
theorem target_encoding_silent_null_witness :
    churnMap (Cell.str "Maybe") = Cell.null
    ∧ churnMap (Cell.str "Yes") = Cell.num 1
    ∧ churnMap (Cell.str "No") = Cell.num 0
    ∧ [Cell.str "Yes", Cell.str "No", Cell.str "Maybe"].map churnMap
        = [Cell.num 1, Cell.num 0, Cell.null] :=
  target_encoding_silent_null "Maybe" (by decide) (by decide)

/-- C9 counterexample: two frames with identical per-column dtype, missing
and unique statistics but different duplicate counts produce the very same
quality report — so the report artifact written by `validate_file` cannot
and does not record the duplicate count (it is only printed and logged). -/
theorem report_lacks_duplicates_cex :
    validateReport dfDupA = validateReport dfDupB
    ∧ dupCount dfDupA = 0 ∧ dupCount dfDupB = 1 := by decide

/-- C9 amended: the quality report records per-column DataType,
MissingValues and UniqueValues (the duplicate count is only logged as a
warning, not written to the report artifact); validation has no failing
path, so duplicates and missing cells never halt the pipeline; and prepare
preserves the input row count — in the 10-row scenario with 2 duplicate
rows and 1 null numeric cell, `duplicated().sum()` is 2, the report's
MissingValues column reads 1 and 0, and every prepared column still has 10
rows. -/
theorem validation_report_and_row_preservation (scale : Col → Col)
    (df : DataFrame) (n : Nat) (lake : Lake) (hwf : ColLengths df n)
    (hscale : ∀ xs : Col, (scale xs).length = xs.length) :
    ColLengths (prepareDataset scale df) n
    ∧ (validateReport df).map (·.1) =
        ["Column", "DataType", "MissingValues", "UniqueValues"]
    ∧ (runValidation lake).isSuccess = true
    ∧ dupCount dfScenario = 2
    ∧ lookupA "MissingValues" (validateReport dfScenario) =
        some [Cell.num 1, Cell.num 0] :=
  ⟨colLengths_prepareDataset hwf scale hscale, rfl, rfl, by decide, by decide⟩

/-- C9 amended witness: the scenario frame itself, with the identity
scaler. -/
theorem validation_report_and_row_preservation_witness :
    ColLengths (prepareDataset id dfScenario) 10
    ∧ (validateReport dfScenario).map (·.1) =
        ["Column", "DataType", "MissingValues", "UniqueValues"]
    ∧ (runValidation []).isSuccess = true
    ∧ dupCount dfScenario = 2
    ∧ lookupA "MissingValues" (validateReport dfScenario) =
        some [Cell.num 1, Cell.num 0] :=
  validation_report_and_row_preservation id dfScenario 10 []
    (by unfold ColLengths; decide) (fun _ => rfl)

end Churn

